import Mathlib

/-!
Verification of the parseapi repository (an Express/Supabase invoice-parsing
service) against its natural-language specification.

The JavaScript source is shallowly embedded:
* JS numbers are modelled as rationals (`ℚ`); a value that may fail numeric
  coercion (`parseFloat`/`parseInt` returning `NaN`) is an `Option ℚ` /
  `Option ℤ` with `none` standing for `NaN` / absent.
* `x || y` on numbers is `jsOr` (`0` and `NaN` are falsy); on strings the
  empty string is falsy (`strOrNull`).
* Remote services (the OpenAI model, `JSON.parse` over decoded payloads, the
  Supabase insert outcome, and the `classify_equipment` / `calculate_savings`
  stored procedures) are oracles supplied as parameters, collected in `Env`.
* Database effects are reified as a `DbWrite` trace; stored-procedure calls
  made by the market-savings loop are reified as a `DbCall` trace.
-/

namespace ParseApi

/-- JS `a || b` for numeric values already known not to be `NaN`:
`0` is falsy, everything else truthy. -/
def jsOr (a b : ℚ) : ℚ := if a = 0 then b else a

/-- JS `parseFloat(x) || 0`: `NaN` (modelled `none`) and `0` both give `0`. -/
def toNum (v : Option ℚ) : ℚ := v.getD 0

/-- JS `parseInt(x) || 1` as used for rental-day counts: `NaN` and `0` give `1`. -/
def toDays (v : Option ℤ) : ℤ :=
  match v with
  | none => 1
  | some d => if d = 0 then 1 else d

/-- JS `q || null` on a computed number: `0` is stored as SQL `null`. -/
def qOrNull (q : ℚ) : Option ℚ := if q = 0 then none else some q

/-- JS `parseFloat(x) || null`: `NaN` and `0` are stored as SQL `null`. -/
def numOrNull (v : Option ℚ) : Option ℚ := qOrNull (toNum v)

/-- JS `s || null` on a string value: absent and `""` are stored as `null`. -/
def strOrNull (s : Option String) : Option String :=
  match s with
  | none => none
  | some t => if t = "" then none else some t

/-- JS `String.prototype.includes`: substring containment. -/
def containsSub (s pat : String) : Bool := decide (pat.toList <:+: s.toList)

/-- JS truthiness of `item.description`: `undefined`/`null`/`""` are falsy. -/
def descFalsy : Option String → Bool
  | none => true
  | some s => s = ""

/-- src/index.js lines 298-314 (`calculateExpectedAmount`): tiered expected
rental amount from day/week/four-week rates and a rental-day count. -/
def calculateExpectedAmount (dayRate weekRate fourWeekRate : Option ℚ)
    (rentalDays : Option ℤ) : ℚ :=
  let day := toNum dayRate
  let week := toNum weekRate
  let month := toNum fourWeekRate
  let days := toDays rentalDays
  if day = 0 ∧ week = 0 ∧ month = 0 then 0 else
  let effectiveDay := jsOr day (jsOr (week / 5) (month / 20))
  let effectiveWeek := jsOr week (jsOr (day * 5) (month / 4))
  let effectiveMonth := jsOr month (jsOr (week * 4) (day * 20))
  if days ≤ 2 then effectiveDay * (days : ℚ)
  else if days ≤ 6 then min (effectiveDay * (days : ℚ)) effectiveWeek
  else if days ≤ 27 then
    min (min (effectiveDay * (days : ℚ))
             (effectiveWeek * (Int.ceil ((days : ℚ) / 7) : ℚ)))
        effectiveMonth
  else
    min (effectiveMonth * (Int.ceil ((days : ℚ) / 28) : ℚ))
        (effectiveWeek * (Int.ceil ((days : ℚ) / 7) : ℚ))

/-- The claim's reading of `calculateExpectedAmount`, written from the spec's
words: effective rates chosen by "this rate, else that derived rate", and
explicit day-count ranges for the four tiers. -/
def calcExpectedAmountClaim (dayRate weekRate fourWeekRate : Option ℚ)
    (rentalDays : Option ℤ) : ℚ :=
  let day := toNum dayRate
  let week := toNum weekRate
  let month := toNum fourWeekRate
  let days := toDays rentalDays
  if day = 0 ∧ week = 0 ∧ month = 0 then 0 else
  let effectiveDay := if day ≠ 0 then day else if week ≠ 0 then week / 5 else month / 20
  let effectiveWeek := if week ≠ 0 then week else if day ≠ 0 then day * 5 else month / 4
  let effectiveMonth := if month ≠ 0 then month else if week ≠ 0 then week * 4 else day * 20
  if days ≤ 2 then effectiveDay * (days : ℚ)
  else if 3 ≤ days ∧ days ≤ 6 then min (effectiveDay * (days : ℚ)) effectiveWeek
  else if 7 ≤ days ∧ days ≤ 27 then
    min (min (effectiveDay * (days : ℚ))
             (effectiveWeek * (Int.ceil ((days : ℚ) / 7) : ℚ)))
        effectiveMonth
  else
    min (effectiveMonth * (Int.ceil ((days : ℚ) / 28) : ℚ))
        (effectiveWeek * (Int.ceil ((days : ℚ) / 7) : ℚ))

theorem jsOr_zero (b : ℚ) : jsOr 0 b = b := by simp [jsOr]

theorem jsOr_ne (a b : ℚ) (h : a ≠ 0) : jsOr a b = a := by simp [jsOr, h]

theorem jsOr_div_five (w x : ℚ) : jsOr (w / 5) x = if w = 0 then x else w / 5 := by
  unfold jsOr
  rcases eq_or_ne w 0 with h | h
  · simp [h]
  · rw [if_neg (by simpa using h), if_neg h]

theorem jsOr_div_four (w x : ℚ) : jsOr (w / 4) x = if w = 0 then x else w / 4 := by
  unfold jsOr
  rcases eq_or_ne w 0 with h | h
  · simp [h]
  · rw [if_neg (by simpa using h), if_neg h]

theorem jsOr_mul_five (w x : ℚ) : jsOr (w * 5) x = if w = 0 then x else w * 5 := by
  unfold jsOr
  rcases eq_or_ne w 0 with h | h
  · simp [h]
  · rw [if_neg (by simp [h]), if_neg h]

theorem jsOr_mul_four (w x : ℚ) : jsOr (w * 4) x = if w = 0 then x else w * 4 := by
  unfold jsOr
  rcases eq_or_ne w 0 with h | h
  · simp [h]
  · rw [if_neg (by simp [h]), if_neg h]

/-- C1: `calculateExpectedAmount` coerces the three rates to numbers
(defaulting to 0) and `rentalDays` to an integer (defaulting to 1), returns 0
when all three rates coerce to 0, otherwise derives the effective day, week
and month rates by the "this rate, else derived rate" fallback chains of the
claim and selects among the four day-count tiers exactly as the claim states. -/
theorem calculateExpectedAmount_tiered (dayRate weekRate fourWeekRate : Option ℚ)
    (rentalDays : Option ℤ) :
    calculateExpectedAmount dayRate weekRate fourWeekRate rentalDays
      = calcExpectedAmountClaim dayRate weekRate fourWeekRate rentalDays := by
  unfold calculateExpectedAmount calcExpectedAmountClaim
  set day := toNum dayRate with hday
  set week := toNum weekRate with hweek
  set month := toNum fourWeekRate with hmonth
  set days := toDays rentalDays with hdays
  rcases Decidable.em (day = 0 ∧ week = 0 ∧ month = 0) with hz | hz
  · simp [hz]
  · rw [if_neg hz, if_neg hz]
    have hed : jsOr day (jsOr (week / 5) (month / 20))
        = (if day ≠ 0 then day else if week ≠ 0 then week / 5 else month / 20) := by
      rcases eq_or_ne day 0 with h | h
      · rw [h, jsOr_zero, jsOr_div_five]
        rcases eq_or_ne week 0 with h' | h' <;> simp [h']
      · rw [jsOr_ne _ _ h, if_pos h]
    have hew : jsOr week (jsOr (day * 5) (month / 4))
        = (if week ≠ 0 then week else if day ≠ 0 then day * 5 else month / 4) := by
      rcases eq_or_ne week 0 with h | h
      · rw [h, jsOr_zero, jsOr_mul_five]
        rcases eq_or_ne day 0 with h' | h' <;> simp [h']
      · rw [jsOr_ne _ _ h, if_pos h]
    have hem : jsOr month (jsOr (week * 4) (day * 20))
        = (if month ≠ 0 then month else if week ≠ 0 then week * 4 else day * 20) := by
      rcases eq_or_ne month 0 with h | h
      · rw [h, jsOr_zero, jsOr_mul_four]
        rcases eq_or_ne week 0 with h' | h' <;> simp [h']
      · rw [jsOr_ne _ _ h, if_pos h]
    rw [hed, hew, hem]
    rcases Decidable.em (days ≤ 2) with h2 | h2
    · simp [h2]
    · rcases Decidable.em (days ≤ 6) with h6 | h6
      · rw [if_neg h2, if_neg h2, if_pos h6, if_pos (by omega : 3 ≤ days ∧ days ≤ 6)]
      · rcases Decidable.em (days ≤ 27) with h27 | h27
        · rw [if_neg h2, if_neg h2, if_neg h6,
            if_neg (by omega : ¬(3 ≤ days ∧ days ≤ 6)), if_pos h27,
            if_pos (by omega : 7 ≤ days ∧ days ≤ 27)]
        · rw [if_neg h2, if_neg h2, if_neg h6,
            if_neg (by omega : ¬(3 ≤ days ∧ days ≤ 6)), if_neg h27,
            if_neg (by omega : ¬(7 ≤ days ∧ days ≤ 27))]

/-- src/fix-existing-invoices.js lines 54-63: the inline rate fallback used
when an equipment item has no parsable amount. -/
def fixRateFallback (dayRate weekRate fourWeekRate : Option ℚ)
    (rentalDays : Option ℤ) : ℚ :=
  let day := toNum dayRate
  let week := toNum weekRate
  let month := toNum fourWeekRate
  let rentalDaysN := toDays rentalDays
  if 0 < day then day * (rentalDaysN : ℚ)
  else if 0 < week then week * (Int.ceil ((rentalDaysN : ℚ) / 7) : ℚ)
  else if 0 < month then month * (Int.ceil ((rentalDaysN : ℚ) / 28) : ℚ)
  else 0

/-- src/index.js lines 1033-1063: the second server variant's copy of
`calculateExpectedAmount`, written with `else if` chains but otherwise
line-for-line the same computation. -/
def calculateExpectedAmount2 (dayRate weekRate fourWeekRate : Option ℚ)
    (rentalDays : Option ℤ) : ℚ :=
  let day := toNum dayRate
  let week := toNum weekRate
  let month := toNum fourWeekRate
  let days := toDays rentalDays
  if day = 0 ∧ week = 0 ∧ month = 0 then 0 else
  let effectiveDay := jsOr day (jsOr (week / 5) (month / 20))
  let effectiveWeek := jsOr week (jsOr (day * 5) (month / 4))
  let effectiveMonth := jsOr month (jsOr (week * 4) (day * 20))
  if days ≤ 2 then effectiveDay * (days : ℚ)
  else if days ≤ 6 then min (effectiveDay * (days : ℚ)) effectiveWeek
  else if days ≤ 27 then
    min (min (effectiveDay * (days : ℚ))
             (effectiveWeek * (Int.ceil ((days : ℚ) / 7) : ℚ)))
        effectiveMonth
  else
    min (effectiveMonth * (Int.ceil ((days : ℚ) / 28) : ℚ))
        (effectiveWeek * (Int.ceil ((days : ℚ) / 7) : ℚ))

/-- C8 counterexample: with day rate 100, week rate 300, no four-week rate and
7 rental days, `calculateExpectedAmount` caps the amount at one week rate
(300) while the fix-existing-invoices inline fallback bills seven day rates
(700), so the three computations are not the same function. -/
theorem expectedAmount_fixFallback_differ :
    ¬ (calculateExpectedAmount (some 100) (some 300) none (some 7)
        = fixRateFallback (some 100) (some 300) none (some 7)) := by
  have h1 : calculateExpectedAmount (some 100) (some 300) none (some 7) = 300 := by
    unfold calculateExpectedAmount jsOr toNum toDays
    norm_num
  have h2 : fixRateFallback (some 100) (some 300) none (some 7) = 700 := by
    unfold fixRateFallback toNum toDays
    norm_num
  rw [h1, h2]
  norm_num

/-- C8 amended: the two `calculateExpectedAmount` definitions (src/index.js
lines 298-314 and lines 1033-1063) compute the same amount on every input;
the inline fallback of src/fix-existing-invoices.js does not (see the
counterexample), so only the two named copies agree everywhere. -/
theorem calculateExpectedAmount_copies_eq (dayRate weekRate fourWeekRate : Option ℚ)
    (rentalDays : Option ℤ) :
    calculateExpectedAmount dayRate weekRate fourWeekRate rentalDays
      = calculateExpectedAmount2 dayRate weekRate fourWeekRate rentalDays := rfl

/-- One fee entry of the extracted `fees` object: its key and the
`parseFloat` view of its value (`none` when the value is not numeric). -/
structure FeeEntry where
  name : String
  amount : Option ℚ
deriving DecidableEq

/-- src/index.js line 524: the freight keywords of POST /parse-base64. -/
def freightKeywords : List String :=
  ["delivery", "pickup", "pick up", "pick-up", "freight", "hauling",
   "mobilization", "demobilization", "cartage", "transport", "trucking",
   "inbound", "outbound", "drayage"]

/-- The three-part condition under which POST /parse-base64 moves a fee
entry's amount into freight: the lowercased key contains a freight keyword,
does not contain "surcharge", and the amount parses to a number above 0. -/
def countsAsFreight (e : FeeEntry) : Bool :=
  ((freightKeywords.any fun kw => containsSub e.name.toLower kw)
      && !containsSub e.name.toLower "surcharge")
    && decide (0 < toNum e.amount)

/-- src/index.js lines 529-538: the body of the reclassification loop, acting
on the accumulated (extractedFreight, remainingFees) pair. -/
def reclassifyStep (acc : ℚ × List FeeEntry) (e : FeeEntry) : ℚ × List FeeEntry :=
  let lowerName := e.name.toLower
  let amount := toNum e.amount
  let isFreight := (freightKeywords.any fun kw => containsSub lowerName kw)
      && !containsSub lowerName "surcharge"
  if isFreight && decide (0 < amount) then (acc.1 + amount, acc.2)
  else (acc.1, acc.2 ++ [e])

/-- src/index.js lines 526-539: reclassify the extracted fees, starting from
the coerced extracted freight, returning the final freight and the remaining
fees object (in entry order). -/
def reclassifyFees (fees : List FeeEntry) (extractedFreight : ℚ) : ℚ × List FeeEntry :=
  fees.foldl reclassifyStep (extractedFreight, [])

theorem reclassifyStep_true (acc : ℚ × List FeeEntry) (e : FeeEntry)
    (h : countsAsFreight e = true) :
    reclassifyStep acc e = (acc.1 + toNum e.amount, acc.2) := by
  unfold countsAsFreight at h
  simp only [reclassifyStep]
  rw [h]
  simp

theorem reclassifyStep_false (acc : ℚ × List FeeEntry) (e : FeeEntry)
    (h : countsAsFreight e = false) :
    reclassifyStep acc e = (acc.1, acc.2 ++ [e]) := by
  unfold countsAsFreight at h
  simp only [reclassifyStep]
  rw [h]
  simp

theorem reclassify_foldl (fees : List FeeEntry) (f0 : ℚ) (acc : List FeeEntry) :
    fees.foldl reclassifyStep (f0, acc)
      = (f0 + ((fees.filter countsAsFreight).map fun e => toNum e.amount).sum,
         acc ++ fees.filter fun e => !countsAsFreight e) := by
  induction fees generalizing f0 acc with
  | nil => simp
  | cons e rest ih =>
    rcases Bool.dichotomy (countsAsFreight e) with h | h
    · rw [List.foldl_cons, reclassifyStep_false (f0, acc) e h, ih,
        List.filter_cons_of_neg (by simp [h]),
        List.filter_cons_of_pos (by simp [h])]
      simp
    · rw [List.foldl_cons, reclassifyStep_true (f0, acc) e h, ih,
        List.filter_cons_of_pos (by simp [h]),
        List.filter_cons_of_neg (by simp [h])]
      simp only [List.map_cons, List.sum_cons]
      rw [add_assoc]

/-- C2: in the POST /parse-base64 reclassification, a fee entry's amount is
added to freight exactly when its lowercased name contains a freight keyword,
does not contain "surcharge", and the amount parses to a number above 0
(`countsAsFreight`); the final freight is the coerced extracted freight plus
the sum of exactly those amounts, and every other entry is kept, unchanged
and in order, in the remaining fees. -/
theorem freight_reclassification (fees : List FeeEntry) (extractedFreight : ℚ) :
    (reclassifyFees fees extractedFreight).1
        = extractedFreight
          + ((fees.filter countsAsFreight).map fun e => toNum e.amount).sum
      ∧ (reclassifyFees fees extractedFreight).2
        = fees.filter fun e => !countsAsFreight e := by
  unfold reclassifyFees
  rw [reclassify_foldl]
  simp

/-- src/index.js lines 589-600: the invoice-level rental-day count of POST
/parse-base64, computed from the billed dates (modelled as millisecond
timestamps, `none` when absent, empty or unparsable), defaulting to 28. -/
def invoiceRentalDays (billed_from billed_through : Option ℤ) : ℤ :=
  match billed_from, billed_through with
  | some fromDate, some toDate =>
    let diffTime : ℤ := |toDate - fromDate|
    let diffDays : ℤ := Int.ceil ((diffTime : ℚ) / (1000 * 60 * 60 * 24))
    if 0 < diffDays then diffDays else 28
  | _, _ => 28

/-- One equipment line item of the extracted invoice. -/
structure EquipItem where
  description : Option String
  serial_number : Option String
  day_rate : Option ℚ
  week_rate : Option ℚ
  four_week_rate : Option ℚ
  rental_days : Option ℤ
  amount : Option ℚ
deriving DecidableEq

/-- src/index.js lines 604-606: the per-item rental-day count, preferring the
item's own `rental_days` when it is truthy and above 1. -/
def itemRentalDays (item : EquipItem) (invDays : ℤ) : ℤ :=
  match item.rental_days with
  | some itemDays => if itemDays ≠ 0 ∧ 1 < itemDays then itemDays else invDays
  | none => invDays

/-- The claim's reading of the rental-day resolution: the item's parsed
`rental_days` when above 1, else the ceiling of the absolute day difference
of the billed dates when both parse and differ, else 28. -/
def rentalDaysClaim (item : EquipItem) (billed_from billed_through : Option ℤ) : ℤ :=
  let dateFallback : ℤ :=
    match billed_from, billed_through with
    | some fromDate, some toDate =>
      if 0 < |toDate - fromDate| then
        Int.ceil (((|toDate - fromDate| : ℤ) : ℚ) / 86400000)
      else 28
    | _, _ => 28
  match item.rental_days with
  | some d => if 1 < d then d else dateFallback
  | none => dateFallback

theorem ceil_day_quotient_pos (x : ℤ) :
    (0 < Int.ceil ((x : ℚ) / 86400000)) ↔ 0 < x := by
  rw [Int.ceil_pos, lt_div_iff₀ (by norm_num : (0:ℚ) < 86400000)]
  simp [Int.cast_pos]

/-- C9: the rental-day count used for each equipment item in POST
/parse-base64 equals the claim's resolution order: the item's `rental_days`
when it parses to an integer above 1, else the ceiling of the day difference
between the billed dates when both parse and the difference is positive, else
the 28-day default (never a 1-day default). -/
theorem rentalDays_resolution (item : EquipItem) (billed_from billed_through : Option ℤ) :
    itemRentalDays item (invoiceRentalDays billed_from billed_through)
      = rentalDaysClaim item billed_from billed_through := by
  have hfb : invoiceRentalDays billed_from billed_through
      = (match billed_from, billed_through with
        | some fromDate, some toDate =>
          if 0 < |toDate - fromDate| then
            Int.ceil (((|toDate - fromDate| : ℤ) : ℚ) / 86400000)
          else (28:ℤ)
        | _, _ => (28:ℤ)) := by
    unfold invoiceRentalDays
    match billed_from, billed_through with
    | none, none => rfl
    | none, some t => rfl
    | some f, none => rfl
    | some f, some t =>
      dsimp only
      rw [show ((1000 * 60 * 60 * 24 : ℚ)) = 86400000 by norm_num]
      by_cases hpos : 0 < |t - f|
      · rw [if_pos ((ceil_day_quotient_pos _).mpr hpos), if_pos hpos]
      · rw [if_neg (fun hc => hpos ((ceil_day_quotient_pos _).mp hc)), if_neg hpos]
  rw [hfb]
  unfold itemRentalDays rentalDaysClaim
  match item.rental_days with
  | none => rfl
  | some d =>
    simp only
    by_cases hd : 1 < d
    · rw [if_pos (⟨by omega, hd⟩ : d ≠ 0 ∧ 1 < d), if_pos hd]
    · rw [if_neg (by omega : ¬(d ≠ 0 ∧ 1 < d)), if_neg hd]

/-- Result row of the `classify_equipment` stored procedure. -/
structure Classified where
  equipment_class : String
  equipment_size : String
  confidence : Option ℚ
deriving DecidableEq

/-- Result row of the `calculate_savings` stored procedure. -/
structure SavingsRow where
  market_rate_low : Option ℚ
  market_rate_high : Option ℚ
  market_rate_avg : Option ℚ
  overpaid_per_day : Option ℚ
  total_overpaid : Option ℚ
  overpaid_percentage : Option ℚ
  data_source : Option String
deriving DecidableEq

/-- The decoded JSON object returned by the model: a superset of the fields
the server variants read; absent fields are `none` / `[]`. The billed dates
are modelled as millisecond timestamps, `none` when absent, empty or not
parsable as a date (an unparsable date yields `NaN` arithmetic downstream,
which the day-difference guard treats exactly like an absent date). -/
structure ParsedInvoice where
  vendor : Option String := none
  invoice_number : Option String := none
  invoice_date : Option String := none
  billed_from : Option ℤ := none
  billed_through : Option ℤ := none
  po_number : Option String := none
  customer_name : Option String := none
  job_site : Option String := none
  equipment : List EquipItem := []
  rental_subtotal : Option ℚ := none
  freight : Option ℚ := none
  meter_charges : Option ℚ := none
  flagged_charges : Option (List (String × Option ℚ)) := none
  fees : Option (List FeeEntry) := none
  tax : Option ℚ := none
  total : Option ℚ := none
  confidence : Option String := none
deriving DecidableEq

/-- src/index.js lines 526-539: the remaining fees after the freight
reclassification of POST /parse-base64 (`{}` when `fees` is absent). -/
def remainingFeesOf (p : ParsedInvoice) : List FeeEntry :=
  match p.fees with
  | some fs => (reclassifyFees fs (toNum p.freight)).2
  | none => []

/-- src/index.js lines 525-541: the final freight of POST /parse-base64. -/
def freightOf (p : ParsedInvoice) : ℚ :=
  match p.fees with
  | some fs => (reclassifyFees fs (toNum p.freight)).1
  | none => toNum p.freight

/-- src/index.js line 544: `feesTotal` — the coerced remaining fee amounts
reduced left-to-right, plus the coerced meter charges. -/
def feesTotalOf (p : ParsedInvoice) : ℚ :=
  (remainingFeesOf p).foldl (fun sum f => sum + toNum f.amount) 0 + toNum p.meter_charges

/-- src/index.js line 545: `feePercentage`. -/
def feePercentageOf (p : ParsedInvoice) : ℚ :=
  if 0 < toNum p.rental_subtotal then feesTotalOf p / toNum p.rental_subtotal * 100 else 0

/-- src/index.js line 547: rental-vendor keywords of the first variant. -/
def rentalKeywords : List String :=
  ["herc", "sunbelt", "united rentals", "ohio cat", "admar", "skyworks",
   "caterpillar", "rental", "leppo"]

/-- src/index.js line 1258 and src/unnamed/part_000 line 179: rental-vendor
keywords of the other variants (no "leppo"). -/
def rentalKeywordsV2 : List String :=
  ["herc", "sunbelt", "united rentals", "ohio cat", "admar", "skyworks",
   "caterpillar", "rental"]

/-- The row payload of the `parsed_invoices` insert of src/index.js lines
551-579 (constant `source`/`app_source` columns omitted). -/
structure InsertPayload where
  user_id : Option String
  invoice_type : String
  is_equipment_rental : Bool
  vendor_name : Option String
  vendor_normalized : Option String
  invoice_number : Option String
  invoice_date : Option String
  billed_from : Option ℤ
  billed_through : Option ℤ
  po_number : Option String
  customer_name : Option String
  job_site : Option String
  rental_subtotal : Option ℚ
  freight : Option ℚ
  freight_total : Option ℚ
  meter_charges : Option ℚ
  flagged_charges : Option (List (String × Option ℚ))
  fees_total : Option ℚ
  tax : Option ℚ
  total : Option ℚ
  fees : List FeeEntry
  equipment : List EquipItem
  fee_percentage : Option ℚ
  confidence : Option String
  raw_response : ParsedInvoice
deriving DecidableEq

/-- src/index.js lines 551-579: build the `parsed_invoices` insert payload of
POST /parse-base64 from the decoded invoice and the request's user id. -/
def buildInsertPayload (p : ParsedInvoice) (userId : Option String) : InsertPayload :=
  let rentalSubtotal := toNum p.rental_subtotal
  let freight := freightOf p
  let meterCharges := toNum p.meter_charges
  let flaggedCharges := p.flagged_charges.getD []
  let feesTotal := feesTotalOf p
  let feePercentage := feePercentageOf p
  let vendorLower := (p.vendor.getD "").toLower
  let isRental := rentalKeywords.any fun kw => containsSub vendorLower kw
  { user_id := strOrNull userId
    invoice_type := if isRental then "equipment_rental" else "unknown"
    is_equipment_rental := isRental
    vendor_name := strOrNull p.vendor
    vendor_normalized := strOrNull ((vendorLower.splitOn " ").headD "")
    invoice_number := strOrNull p.invoice_number
    invoice_date := strOrNull p.invoice_date
    billed_from := p.billed_from
    billed_through := p.billed_through
    po_number := strOrNull p.po_number
    customer_name := strOrNull p.customer_name
    job_site := strOrNull p.job_site
    rental_subtotal := qOrNull rentalSubtotal
    freight := qOrNull freight
    freight_total := qOrNull freight
    meter_charges := if 0 < meterCharges then some meterCharges else none
    flagged_charges := if 0 < flaggedCharges.length then some flaggedCharges else none
    fees_total := qOrNull feesTotal
    tax := numOrNull p.tax
    total := numOrNull p.total
    fees := remainingFeesOf p
    equipment := p.equipment
    fee_percentage := qOrNull feePercentage
    confidence := strOrNull p.confidence
    raw_response := p }

/-- The row payload of the `parsed_invoices` insert of the second variant
(src/index.js lines 1262-1284): no freight/meter/billed/flagged columns. -/
structure InsertPayloadV2 where
  user_id : Option String
  invoice_type : String
  is_equipment_rental : Bool
  vendor_name : Option String
  vendor_normalized : Option String
  invoice_number : Option String
  invoice_date : Option String
  po_number : Option String
  customer_name : Option String
  job_site : Option String
  rental_subtotal : Option ℚ
  fees_total : Option ℚ
  tax : Option ℚ
  total : Option ℚ
  fees : List FeeEntry
  equipment : List EquipItem
  fee_percentage : Option ℚ
  confidence : Option String
  raw_response : ParsedInvoice
deriving DecidableEq

/-- src/index.js line 1254: the second variant's `feesTotal` (all extracted
fees, no reclassification, no meter charges). -/
def feesTotalV2 (p : ParsedInvoice) : ℚ :=
  match p.fees with
  | some fs => fs.foldl (fun sum f => sum + toNum f.amount) 0
  | none => 0

/-- src/index.js line 1256: the second variant's `feePercentage`. -/
def feePercentageV2 (p : ParsedInvoice) : ℚ :=
  if 0 < toNum p.rental_subtotal then feesTotalV2 p / toNum p.rental_subtotal * 100 else 0

/-- src/index.js lines 1262-1284: the second variant's insert payload. -/
def buildInsertPayloadV2 (p : ParsedInvoice) (userId : Option String) : InsertPayloadV2 :=
  let vendorLower := (p.vendor.getD "").toLower
  let isRental := rentalKeywordsV2.any fun kw => containsSub vendorLower kw
  { user_id := strOrNull userId
    invoice_type := if isRental then "equipment_rental" else "unknown"
    is_equipment_rental := isRental
    vendor_name := strOrNull p.vendor
    vendor_normalized := strOrNull ((vendorLower.splitOn " ").headD "")
    invoice_number := strOrNull p.invoice_number
    invoice_date := strOrNull p.invoice_date
    po_number := strOrNull p.po_number
    customer_name := strOrNull p.customer_name
    job_site := strOrNull p.job_site
    rental_subtotal := qOrNull (toNum p.rental_subtotal)
    fees_total := qOrNull (feesTotalV2 p)
    tax := numOrNull p.tax
    total := numOrNull p.total
    fees := p.fees.getD []
    equipment := p.equipment
    fee_percentage := qOrNull (feePercentageV2 p)
    confidence := strOrNull p.confidence
    raw_response := p }

/-- The insert payload of src/unnamed/part_000 lines 183-204: as the second
variant but with no `user_id` (the endpoint reads none). -/
structure InsertPayloadV0 where
  invoice_type : String
  is_equipment_rental : Bool
  vendor_name : Option String
  vendor_normalized : Option String
  invoice_number : Option String
  invoice_date : Option String
  po_number : Option String
  customer_name : Option String
  job_site : Option String
  rental_subtotal : Option ℚ
  fees_total : Option ℚ
  tax : Option ℚ
  total : Option ℚ
  fees : List FeeEntry
  equipment : List EquipItem
  fee_percentage : Option ℚ
  confidence : Option String
  raw_response : ParsedInvoice
deriving DecidableEq

/-- src/unnamed/part_000 lines 174-204: the earliest variant's payload. -/
def buildInsertPayloadV0 (p : ParsedInvoice) : InsertPayloadV0 :=
  let vendorLower := (p.vendor.getD "").toLower
  let isRental := rentalKeywordsV2.any fun kw => containsSub vendorLower kw
  { invoice_type := if isRental then "equipment_rental" else "unknown"
    is_equipment_rental := isRental
    vendor_name := strOrNull p.vendor
    vendor_normalized := strOrNull ((vendorLower.splitOn " ").headD "")
    invoice_number := strOrNull p.invoice_number
    invoice_date := strOrNull p.invoice_date
    po_number := strOrNull p.po_number
    customer_name := strOrNull p.customer_name
    job_site := strOrNull p.job_site
    rental_subtotal := qOrNull (toNum p.rental_subtotal)
    fees_total := qOrNull (feesTotalV2 p)
    tax := numOrNull p.tax
    total := numOrNull p.total
    fees := p.fees.getD []
    equipment := p.equipment
    fee_percentage := qOrNull (feePercentageV2 p)
    confidence := strOrNull p.confidence
    raw_response := p }

/-- One entry of the `equipment_with_rates` array: the extracted item merged
with the classification and market-comparison fields. -/
structure EquipRow where
  item : EquipItem
  calculated_amount : ℚ
  equipment_class : String
  equipment_size : String
  classification_confidence : Option ℚ
  market_rate_low : Option ℚ
  market_rate_high : Option ℚ
  market_rate_avg : Option ℚ
  overpaid_per_day : Option ℚ
  total_overpaid : Option ℚ
  overpaid_percentage : Option ℚ
  data_source : Option String
deriving DecidableEq

/-- src/index.js lines 632-650: the enriched equipment entry pushed by POST
/parse-base64, including the derived `overpaid_percentage`. -/
def mkEquipRow (item : EquipItem) (actualAmount : ℚ) (classified : Classified)
    (savings : SavingsRow) : EquipRow :=
  let marketAvg := toNum savings.market_rate_avg
  let overpaidPct :=
    if 0 < marketAvg ∧ marketAvg < actualAmount then
      (actualAmount - marketAvg) / marketAvg * 100
    else 0
  { item := item
    calculated_amount := actualAmount
    equipment_class := classified.equipment_class
    equipment_size := classified.equipment_size
    classification_confidence := classified.confidence
    market_rate_low := savings.market_rate_low
    market_rate_high := savings.market_rate_high
    market_rate_avg := savings.market_rate_avg
    overpaid_per_day := savings.overpaid_per_day
    total_overpaid := savings.total_overpaid
    overpaid_percentage := some (jsOr (toNum savings.overpaid_percentage) overpaidPct)
    data_source := savings.data_source }

/-- src/index.js lines 1365-1377 and src/fix-existing-invoices.js lines
108-120: the enriched equipment entry of the second variant and of the fix
script, which carries no `overpaid_percentage` key. -/
def mkEquipRowNoPct (item : EquipItem) (actualAmount : ℚ) (classified : Classified)
    (savings : SavingsRow) : EquipRow :=
  { item := item
    calculated_amount := actualAmount
    equipment_class := classified.equipment_class
    equipment_size := classified.equipment_size
    classification_confidence := classified.confidence
    market_rate_low := savings.market_rate_low
    market_rate_high := savings.market_rate_high
    market_rate_avg := savings.market_rate_avg
    overpaid_per_day := savings.overpaid_per_day
    total_overpaid := savings.total_overpaid
    overpaid_percentage := none
    data_source := savings.data_source }

/-- A write the code performs on the database, reified. Inserts into tables
other than `parsed_invoices` and `equipment_rates` (chat logs, referrals,
contractor leads) touch no `parsed_invoices` row and are not modelled. -/
inductive DbWrite where
  | insertParsedInvoice (payload : InsertPayload)
  | insertParsedInvoiceV2 (payload : InsertPayloadV2)
  | insertParsedInvoiceV0 (payload : InsertPayloadV0)
  | insertEquipmentRates (invoiceId : ℤ) (userId : Option String)
      (equipment_description equipment_class equipment_size : String)
      (day_rate week_rate four_week_rate : Option ℚ) (rental_days : ℤ)
      (vendor_name : Option String) (invoice_date : Option String)
  | updateSavings (invoiceId : ℤ) (market_savings : ℚ)
      (equipment_with_rates : List EquipRow)
  | deleteParsedInvoice (invoiceId : ℤ)
deriving DecidableEq

/-- Does the write target the `parsed_invoices` table? -/
def DbWrite.onParsedInvoices : DbWrite → Bool
  | .insertEquipmentRates .. => false
  | _ => true

/-- Is the write an insert of a new `parsed_invoices` row? -/
def DbWrite.isParsedInvoiceInsert : DbWrite → Bool
  | .insertParsedInvoice _ => true
  | .insertParsedInvoiceV2 _ => true
  | .insertParsedInvoiceV0 _ => true
  | _ => false

/-- Is the write an insert into `equipment_rates`? -/
def DbWrite.isEquipmentRatesInsert : DbWrite → Bool
  | .insertEquipmentRates .. => true
  | _ => false

/-- Is the write the market-savings update? -/
def DbWrite.isUpdateSavings : DbWrite → Bool
  | .updateSavings .. => true
  | _ => false

/-- Is the write a delete of a `parsed_invoices` row? -/
def DbWrite.isDelete : DbWrite → Bool
  | .deleteParsedInvoice _ => true
  | _ => false

/-- A stored-procedure call made by the market-savings loop, reified. -/
inductive DbCall where
  | classifyCall (description : String)
  | savingsCall (equipment_class equipment_size : String)
      (actual_amount : ℚ) (rental_days : ℤ)
deriving DecidableEq

/-- The external world of one request: the model's response text, the JSON
decoding oracle (`none` models a `JSON.parse` throw), the outcome of the
`parsed_invoices` insert (`none` models an insert error or missing id), and
the two stored procedures. -/
structure Env where
  content : String
  jsonParse : String → Option ParsedInvoice
  insertResult : Option ℤ
  classify : String → List Classified
  calcSavings : String → String → ℚ → ℤ → List SavingsRow

/-- The body of a POST /parse-base64 request. -/
structure Req where
  base64Image : Option String
  mimeType : Option String
  userId : Option String

/-- The HTTP response, reduced to the shape the claims mention. -/
inductive Resp where
  | badRequest (error : String)
  | serverError (error : String)
  | success (invoiceId : ℤ) (market_savings : ℚ)
  | successData (data : ParsedInvoice)

/-- Is the response a success payload? -/
def Resp.isSuccess : Resp → Bool
  | .success _ _ => true
  | .successData _ => true
  | _ => false

/-- Is the response an HTTP 4xx/5xx error payload? -/
def Resp.isError : Resp → Bool
  | .badRequest _ => true
  | .serverError _ => true
  | _ => false

/-- The JS regex match `content.match(/\x7b[\s\S]*\x7d/)`: the substring from
the first opening brace to the last closing brace, when the latter comes
after the former. -/
def braceSubstring (s : String) : Option String :=
  let cs := s.toList
  match cs.findIdx? (fun c => c = '{'), cs.reverse.findIdx? (fun c => c = '}') with
  | some i, some rj =>
    let j := cs.length - 1 - rj
    if i < j then some (String.mk ((cs.drop i).take (j - i + 1))) else none
  | _, _ => none

/-- Outcome of the JSON-repair step of POST /parse-base64: direct parse, or
parse of the brace substring; `noJson` is the explicit "Could not parse"
response, `badJson` the `JSON.parse` throw routed to the outer catch. -/
inductive RepairOutcome where
  | ok (p : ParsedInvoice)
  | noJson
  | badJson
deriving DecidableEq

/-- src/index.js lines 510-521: try `JSON.parse(content)`, else take the
first-brace-to-last-brace substring and `JSON.parse` that. -/
def repairJson (jsonParse : String → Option ParsedInvoice) (content : String) :
    RepairOutcome :=
  match jsonParse content with
  | some p => .ok p
  | none =>
    match braceSubstring content with
    | none => .noJson
    | some matched =>
      match jsonParse matched with
      | some p => .ok p
      | none => .badJson

/-- src/index.js lines 607-611: the item's amount, or when that coerces to 0
the tiered expected amount from its rates. -/
def resolvedAmount (item : EquipItem) (rentalDays : ℤ) : ℚ :=
  if toNum item.amount = 0 then
    calculateExpectedAmount item.day_rate item.week_rate item.four_week_rate (some rentalDays)
  else toNum item.amount

/-- Accumulated state of the market-savings loop. -/
structure LoopAcc where
  totalMarketSavings : ℚ
  equipmentWithRates : List EquipRow
  writes : List DbWrite
  calls : List DbCall

/-- src/index.js lines 603-671: one iteration of the POST /parse-base64
market-savings loop, with the stored-procedure calls it makes reified in
order. -/
def processItem (env : Env) (vendor invoiceDate userId : Option String)
    (invoiceId : ℤ) (invDays : ℤ) (item : EquipItem) : LoopAcc :=
  let rentalDays := itemRentalDays item invDays
  let actualAmount := resolvedAmount item rentalDays
  if descFalsy item.description || decide (actualAmount = 0) then
    { totalMarketSavings := 0, equipmentWithRates := [], writes := [], calls := [] }
  else
    let desc := item.description.getD ""
    match env.classify desc with
    | [] =>
      { totalMarketSavings := 0, equipmentWithRates := [], writes := [],
        calls := [.classifyCall desc] }
    | classified :: _ =>
      match env.calcSavings classified.equipment_class classified.equipment_size
          actualAmount rentalDays with
      | [] =>
        { totalMarketSavings := 0, equipmentWithRates := [], writes := [],
          calls := [.classifyCall desc,
            .savingsCall classified.equipment_class classified.equipment_size
              actualAmount rentalDays] }
      | savings :: _ =>
        { totalMarketSavings := toNum savings.total_overpaid
          equipmentWithRates := [mkEquipRow item actualAmount classified savings]
          writes := [.insertEquipmentRates invoiceId userId desc
            classified.equipment_class classified.equipment_size
            (numOrNull item.day_rate) (numOrNull item.week_rate)
            (numOrNull item.four_week_rate) rentalDays vendor invoiceDate]
          calls := [.classifyCall desc,
            .savingsCall classified.equipment_class classified.equipment_size
              actualAmount rentalDays] }

/-- src/index.js lines 602-672: the market-savings loop over the equipment
items, accumulating left to right. -/
def marketLoop (env : Env) (vendor invoiceDate userId : Option String)
    (invoiceId : ℤ) (invDays : ℤ) : List EquipItem → LoopAcc
  | [] => { totalMarketSavings := 0, equipmentWithRates := [], writes := [], calls := [] }
  | item :: rest =>
    let h := processItem env vendor invoiceDate userId invoiceId invDays item
    let r := marketLoop env vendor invoiceDate userId invoiceId invDays rest
    { totalMarketSavings := h.totalMarketSavings + r.totalMarketSavings
      equipmentWithRates := h.equipmentWithRates ++ r.equipmentWithRates
      writes := h.writes ++ r.writes
      calls := h.calls ++ r.calls }

/-- src/index.js lines 551-695: normalization and persistence of POST
/parse-base64 once a decoded invoice is available: insert, market loop,
savings update, success response. -/
def persistPhase (env : Env) (req : Req) (parsed : ParsedInvoice) :
    Resp × List DbWrite :=
  let payload := buildInsertPayload parsed req.userId
  match env.insertResult with
  | none => (.serverError "Failed to insert invoice", [])
  | some invoiceId =>
    let invDays := invoiceRentalDays parsed.billed_from parsed.billed_through
    let acc := marketLoop env parsed.vendor parsed.invoice_date req.userId invoiceId
      invDays parsed.equipment
    (.success invoiceId acc.totalMarketSavings,
     DbWrite.insertParsedInvoice payload
       :: (acc.writes
           ++ [DbWrite.updateSavings invoiceId acc.totalMarketSavings
                acc.equipmentWithRates]))

/-- src/index.js lines 360-700: the POST /parse-base64 handler of the first
variant. -/
def parseBase64 (env : Env) (req : Req) : Resp × List DbWrite :=
  match req.base64Image with
  | none => (.badRequest "No image provided", [])
  | some _ =>
    match repairJson env.jsonParse env.content with
    | .noJson => (.serverError "Could not parse OpenAI response as JSON", [])
    | .badJson => (.serverError "Unexpected token in JSON", [])
    | .ok parsed => persistPhase env req parsed

/-- src/index.js line 349: strip markdown code fences before `JSON.parse` in
POST /parse. -/
def stripCodeFences (content : String) : String :=
  ((((content.replace "```json\n" "").replace "```json" "").replace "```\n" "").replace
    "```" "").trim

/-- src/index.js lines 316-358: the POST /parse handler — parse the model
response and return it; no database access at all. -/
def parseUpload (jsonParse : String → Option ParsedInvoice) (file : Option String)
    (content : String) : Resp × List DbWrite :=
  match file with
  | none => (.badRequest "No file uploaded", [])
  | some _ =>
    match jsonParse (stripCodeFences content) with
    | none => (.serverError "Failed to parse invoice", [])
    | some parsed => (.successData parsed, [])

/-- src/index.js lines 1310-1399: one iteration of the second variant's
market-savings loop (`rental_days` falls back to 1, second copy of the
expected-amount function, no `overpaid_percentage`). -/
def processItemV2 (env : Env) (vendor invoiceDate userId : Option String)
    (invoiceId : ℤ) (item : EquipItem) : LoopAcc :=
  let rentalDays := toDays item.rental_days
  let actualAmount :=
    if toNum item.amount = 0 then
      calculateExpectedAmount2 item.day_rate item.week_rate item.four_week_rate
        (some rentalDays)
    else toNum item.amount
  if descFalsy item.description || decide (actualAmount = 0) then
    { totalMarketSavings := 0, equipmentWithRates := [], writes := [], calls := [] }
  else
    let desc := item.description.getD ""
    match env.classify desc with
    | [] =>
      { totalMarketSavings := 0, equipmentWithRates := [], writes := [],
        calls := [.classifyCall desc] }
    | classified :: _ =>
      match env.calcSavings classified.equipment_class classified.equipment_size
          actualAmount rentalDays with
      | [] =>
        { totalMarketSavings := 0, equipmentWithRates := [], writes := [],
          calls := [.classifyCall desc,
            .savingsCall classified.equipment_class classified.equipment_size
              actualAmount rentalDays] }
      | savings :: _ =>
        { totalMarketSavings := toNum savings.total_overpaid
          equipmentWithRates := [mkEquipRowNoPct item actualAmount classified savings]
          writes := [.insertEquipmentRates invoiceId userId desc
            classified.equipment_class classified.equipment_size
            (numOrNull item.day_rate) (numOrNull item.week_rate)
            (numOrNull item.four_week_rate) rentalDays vendor invoiceDate]
          calls := [.classifyCall desc,
            .savingsCall classified.equipment_class classified.equipment_size
              actualAmount rentalDays] }

/-- src/index.js lines 1309-1400: the second variant's market-savings loop. -/
def marketLoopV2 (env : Env) (vendor invoiceDate userId : Option String)
    (invoiceId : ℤ) : List EquipItem → LoopAcc
  | [] => { totalMarketSavings := 0, equipmentWithRates := [], writes := [], calls := [] }
  | item :: rest =>
    let h := processItemV2 env vendor invoiceDate userId invoiceId item
    let r := marketLoopV2 env vendor invoiceDate userId invoiceId rest
    { totalMarketSavings := h.totalMarketSavings + r.totalMarketSavings
      equipmentWithRates := h.equipmentWithRates ++ r.equipmentWithRates
      writes := h.writes ++ r.writes
      calls := h.calls ++ r.calls }

/-- src/index.js lines 1150-1447: the second variant's POST /parse-base64. -/
def parseBase64V2 (env : Env) (req : Req) : Resp × List DbWrite :=
  match req.base64Image with
  | none => (.badRequest "No image provided", [])
  | some _ =>
    match repairJson env.jsonParse env.content with
    | .noJson => (.serverError "Could not parse OpenAI response as JSON", [])
    | .badJson => (.serverError "Unexpected token in JSON", [])
    | .ok parsed =>
      let payload := buildInsertPayloadV2 parsed req.userId
      match env.insertResult with
      | none => (.serverError "Failed to insert invoice", [])
      | some invoiceId =>
        let acc := marketLoopV2 env parsed.vendor parsed.invoice_date req.userId
          invoiceId parsed.equipment
        (.success invoiceId acc.totalMarketSavings,
         DbWrite.insertParsedInvoiceV2 payload
           :: (acc.writes
               ++ [DbWrite.updateSavings invoiceId acc.totalMarketSavings
                    acc.equipmentWithRates]))

/-- src/unnamed/part_000 lines 94-219: the earliest POST /parse-base64 — one
fire-and-forget insert, success response even when the insert errors. -/
def parseBase64V0 (env : Env) (req : Req) : Resp × List DbWrite :=
  match req.base64Image with
  | none => (.badRequest "No image provided", [])
  | some _ =>
    match repairJson env.jsonParse env.content with
    | .noJson => (.serverError "Could not parse OpenAI response as JSON", [])
    | .badJson => (.serverError "Unexpected token in JSON", [])
    | .ok parsed =>
      (.successData parsed,
       match env.insertResult with
       | some _ => [DbWrite.insertParsedInvoiceV0 (buildInsertPayloadV0 parsed)]
       | none => [])

/-- A stored `parsed_invoices` row: the inserted payload plus the id and the
two savings columns written by the follow-up update. -/
structure InvoiceRow where
  id : ℤ
  payload : InsertPayload
  market_savings : Option ℚ
  equipment_with_rates : Option (List EquipRow)
deriving DecidableEq

/-- Semantics of `DbWrite.updateSavings` on a row: set the two savings
columns, leave everything else alone. -/
def applyUpdateSavings (row : InvoiceRow) (ms : ℚ) (ewr : List EquipRow) : InvoiceRow :=
  { row with market_savings := some ms, equipment_with_rates := some ewr }

/-- src/fix-existing-invoices.js lines 44-125: one item of the fix script's
loop — inline rate fallback, classify, savings. -/
def fixItemContribution (classify : String → List Classified)
    (calcSavings : String → String → ℚ → ℤ → List SavingsRow)
    (item : EquipItem) : ℚ × List EquipRow :=
  if descFalsy item.description then (0, [])
  else
    let desc := item.description.getD ""
    let rentalDays := toDays item.rental_days
    let actualAmount :=
      if toNum item.amount = 0 then
        fixRateFallback item.day_rate item.week_rate item.four_week_rate item.rental_days
      else toNum item.amount
    if actualAmount = 0 then (0, [])
    else
      match classify desc with
      | [] => (0, [])
      | classified :: _ =>
        match calcSavings classified.equipment_class classified.equipment_size
            actualAmount rentalDays with
        | [] => (0, [])
        | savings :: _ =>
          (toNum savings.total_overpaid,
           [mkEquipRowNoPct item actualAmount classified savings])

/-- src/fix-existing-invoices.js lines 41-125: the fix script's loop over one
invoice's equipment. -/
def fixLoop (classify : String → List Classified)
    (calcSavings : String → String → ℚ → ℤ → List SavingsRow) :
    List EquipItem → ℚ × List EquipRow
  | [] => (0, [])
  | item :: rest =>
    let h := fixItemContribution classify calcSavings item
    let r := fixLoop classify calcSavings rest
    (h.1 + r.1, h.2 ++ r.2)

/-- src/fix-existing-invoices.js lines 25-143: the per-invoice writes of the
fix script — always a single savings update. -/
def fixInvoice (classify : String → List Classified)
    (calcSavings : String → String → ℚ → ℤ → List SavingsRow)
    (inv : InvoiceRow) : List DbWrite :=
  if inv.payload.equipment.isEmpty then [.updateSavings inv.id 0 []]
  else
    let res := fixLoop classify calcSavings inv.payload.equipment
    [.updateSavings inv.id res.1 res.2]

/-- src/fix-existing-invoices.js lines 9-146: the whole fix script — update
each row whose `market_savings` is null. -/
def fixExistingInvoices (classify : String → List Classified)
    (calcSavings : String → String → ℚ → ℤ → List SavingsRow)
    (rows : List InvoiceRow) : List DbWrite :=
  ((rows.filter fun r => r.market_savings.isNone).map
    (fixInvoice classify calcSavings)).flatten

theorem foldl_add_toNum (l : List FeeEntry) (a : ℚ) :
    l.foldl (fun sum f => sum + toNum f.amount) a
      = a + (l.map fun e => toNum e.amount).sum := by
  induction l generalizing a with
  | nil => simp
  | cons e rest ih =>
    rw [List.foldl_cons, ih, List.map_cons, List.sum_cons, add_assoc]

/-- C10: the stored `fees_total` of POST /parse-base64 is the sum of the fee
amounts remaining after freight reclassification (each coerced, 0 when
unparsable) plus the coerced meter charges, so meter overage charges are
counted inside `fees_total` (and hence inside `fee_percentage`) even though
`meter_charges` is also persisted as its own column. -/
theorem feesTotal_includes_meter (p : ParsedInvoice) (userId : Option String) :
    feesTotalOf p
        = ((remainingFeesOf p).map fun e => toNum e.amount).sum + toNum p.meter_charges
      ∧ (buildInsertPayload p userId).fees_total = qOrNull (feesTotalOf p)
      ∧ (buildInsertPayload p userId).meter_charges
        = (if 0 < toNum p.meter_charges then some (toNum p.meter_charges) else none)
      ∧ feePercentageOf p
        = (if 0 < toNum p.rental_subtotal
            then feesTotalOf p / toNum p.rental_subtotal * 100 else 0) := by
  refine ⟨?_, rfl, rfl, rfl⟩
  unfold feesTotalOf
  rw [foldl_add_toNum, zero_add]

/-- C6: every numeric column of the row inserted by POST /parse-base64 is
either the number the code derives from the corresponding extracted value or
SQL `null` (never a non-numeric value — the payload columns are `Option ℚ`
by construction); absent tax/total become null, absent fees leave only the
meter charges in `fees_total`, and `fee_percentage` is null when the rental
subtotal is not positive. -/
theorem insert_numeric_defaults (p : ParsedInvoice) (userId : Option String) :
    ((buildInsertPayload p userId).rental_subtotal = none
        ∨ (buildInsertPayload p userId).rental_subtotal = some (toNum p.rental_subtotal))
      ∧ ((buildInsertPayload p userId).freight = none
        ∨ (buildInsertPayload p userId).freight = some (freightOf p))
      ∧ (buildInsertPayload p userId).freight_total = (buildInsertPayload p userId).freight
      ∧ ((buildInsertPayload p userId).meter_charges = none
        ∨ (buildInsertPayload p userId).meter_charges = some (toNum p.meter_charges))
      ∧ ((buildInsertPayload p userId).fees_total = none
        ∨ (buildInsertPayload p userId).fees_total = some (feesTotalOf p))
      ∧ (buildInsertPayload p userId).tax = numOrNull p.tax
      ∧ (p.tax = none → (buildInsertPayload p userId).tax = none)
      ∧ (buildInsertPayload p userId).total = numOrNull p.total
      ∧ (p.total = none → (buildInsertPayload p userId).total = none)
      ∧ (p.fees = none → feesTotalOf p = toNum p.meter_charges)
      ∧ ((buildInsertPayload p userId).fee_percentage = none
        ∨ (buildInsertPayload p userId).fee_percentage = some (feePercentageOf p))
      ∧ (¬ 0 < toNum p.rental_subtotal →
          (buildInsertPayload p userId).fee_percentage = none) := by
  have hpay : ∀ q : ℚ, qOrNull q = none ∨ qOrNull q = some q := by
    intro q
    unfold qOrNull
    split
    · exact Or.inl rfl
    · exact Or.inr rfl
  refine ⟨?_, ?_, rfl, ?_, ?_, rfl, ?_, rfl, ?_, ?_, ?_, ?_⟩
  · exact hpay (toNum p.rental_subtotal)
  · exact hpay (freightOf p)
  · by_cases h : 0 < toNum p.meter_charges
    · exact Or.inr (by simp [buildInsertPayload, h])
    · exact Or.inl (by simp [buildInsertPayload, h])
  · exact hpay (feesTotalOf p)
  · intro h
    simp [buildInsertPayload, numOrNull, toNum, h, qOrNull]
  · intro h
    simp [buildInsertPayload, numOrNull, toNum, h, qOrNull]
  · intro h
    simp [feesTotalOf, remainingFeesOf, h]
  · exact hpay (feePercentageOf p)
  · intro h
    have hzero : feePercentageOf p = 0 := by
      unfold feePercentageOf
      rw [if_neg h]
    simp [buildInsertPayload, qOrNull, hzero]

/-- A concrete decoded invoice with every field absent, used by witnesses. -/
def sampleParsed : ParsedInvoice := {}

/-- The claim's qualification for one equipment item to contribute to
`market_savings`: truthy description, nonzero resolved amount, non-empty
`classify_equipment` result, non-empty `calculate_savings` result. -/
def qualifiesForSavings (env : Env) (invDays : ℤ) (item : EquipItem) : Bool :=
  (!descFalsy item.description
      && decide (resolvedAmount item (itemRentalDays item invDays) ≠ 0))
    && (match env.classify (item.description.getD "") with
        | [] => false
        | classified :: _ =>
          !(env.calcSavings classified.equipment_class classified.equipment_size
              (resolvedAmount item (itemRentalDays item invDays))
              (itemRentalDays item invDays)).isEmpty)

/-- The claim's per-item overpayment: the coerced `total_overpaid` of the
first savings row (0 when either stored procedure returns nothing). -/
def itemOverpaid (env : Env) (invDays : ℤ) (item : EquipItem) : ℚ :=
  match env.classify (item.description.getD "") with
  | [] => 0
  | classified :: _ =>
    match env.calcSavings classified.equipment_class classified.equipment_size
        (resolvedAmount item (itemRentalDays item invDays))
        (itemRentalDays item invDays) with
    | [] => 0
    | savings :: _ => toNum savings.total_overpaid

theorem processItem_total (env : Env) (vendor invoiceDate userId : Option String)
    (invoiceId : ℤ) (invDays : ℤ) (item : EquipItem) :
    (processItem env vendor invoiceDate userId invoiceId invDays item).totalMarketSavings
      = if qualifiesForSavings env invDays item
          then itemOverpaid env invDays item else 0 := by
  simp only [processItem, qualifiesForSavings, itemOverpaid]
  by_cases hd : descFalsy item.description
  · simp [hd]
  · by_cases ha : resolvedAmount item (itemRentalDays item invDays) = 0
    · simp [hd, ha]
    · cases hc : env.classify (item.description.getD "") with
      | nil => simp [hd, ha, hc]
      | cons classified rest =>
        cases hs : env.calcSavings classified.equipment_class classified.equipment_size
            (resolvedAmount item (itemRentalDays item invDays))
            (itemRentalDays item invDays) with
        | nil => simp [hd, ha, hc, hs]
        | cons savings srest => simp [hd, ha, hc, hs]

theorem marketLoop_total (env : Env) (vendor invoiceDate userId : Option String)
    (invoiceId : ℤ) (invDays : ℤ) (items : List EquipItem) :
    (marketLoop env vendor invoiceDate userId invoiceId invDays items).totalMarketSavings
      = ((items.filter (qualifiesForSavings env invDays)).map
          (itemOverpaid env invDays)).sum := by
  induction items with
  | nil => simp [marketLoop]
  | cons item rest ih =>
    simp only [marketLoop]
    rw [processItem_total, ih]
    by_cases h : qualifiesForSavings env invDays item = true
    · rw [if_pos h, List.filter_cons_of_pos h, List.map_cons, List.sum_cons]
    · rw [if_neg h, List.filter_cons_of_neg (by simpa using h), zero_add]

theorem processItem_calls_shape (env : Env) (vendor invoiceDate userId : Option String)
    (invoiceId : ℤ) (invDays : ℤ) (item : EquipItem) :
    (processItem env vendor invoiceDate userId invoiceId invDays item).calls = []
      ∨ (processItem env vendor invoiceDate userId invoiceId invDays item).calls
        = [DbCall.classifyCall (item.description.getD "")]
      ∨ ∃ cls sz amount days,
          (processItem env vendor invoiceDate userId invoiceId invDays item).calls
            = [DbCall.classifyCall (item.description.getD ""),
               DbCall.savingsCall cls sz amount days] := by
  simp only [processItem]
  by_cases hd : descFalsy item.description
  · simp [hd]
  · by_cases ha : resolvedAmount item (itemRentalDays item invDays) = 0
    · simp [hd, ha]
    · cases hc : env.classify (item.description.getD "") with
      | nil => simp [hd, ha, hc]
      | cons classified rest =>
        cases hs : env.calcSavings classified.equipment_class classified.equipment_size
            (resolvedAmount item (itemRentalDays item invDays))
            (itemRentalDays item invDays) with
        | nil =>
          refine Or.inr (Or.inr ⟨classified.equipment_class, classified.equipment_size,
            resolvedAmount item (itemRentalDays item invDays),
            itemRentalDays item invDays, ?_⟩)
          simp [hd, ha, hc, hs]
        | cons savings srest =>
          refine Or.inr (Or.inr ⟨classified.equipment_class, classified.equipment_size,
            resolvedAmount item (itemRentalDays item invDays),
            itemRentalDays item invDays, ?_⟩)
          simp [hd, ha, hc, hs]

/-- C3: for every POST /parse-base64 request that reaches persistence
(decoded invoice `p`, successful insert of id `invoiceId`), the trace
contains the follow-up savings update whose `market_savings` value equals
the sum, over exactly those equipment items with a truthy description, a
nonzero resolved amount (item amount, else the tiered expected amount), a
non-empty `classify_equipment` result and a non-empty `calculate_savings`
result, of the item's coerced `total_overpaid`; and for every item the
loop's stored-procedure calls start with `classify_equipment` on the item's
description, with `calculate_savings` only ever after it — an item failing
any step contributes nothing by `processItem_total`. -/
theorem market_savings_update (env : Env) (req : Req) (p : ParsedInvoice)
    (invoiceId : ℤ)
    (himg : req.base64Image.isSome = true)
    (hp : repairJson env.jsonParse env.content = .ok p)
    (hins : env.insertResult = some invoiceId) :
    (∃ ewr, DbWrite.updateSavings invoiceId
        (((p.equipment.filter
              (qualifiesForSavings env (invoiceRentalDays p.billed_from p.billed_through))).map
            (itemOverpaid env (invoiceRentalDays p.billed_from p.billed_through))).sum) ewr
        ∈ (parseBase64 env req).2)
      ∧ (∀ item : EquipItem,
          (processItem env p.vendor p.invoice_date req.userId invoiceId
              (invoiceRentalDays p.billed_from p.billed_through) item).calls = []
            ∨ (processItem env p.vendor p.invoice_date req.userId invoiceId
                (invoiceRentalDays p.billed_from p.billed_through) item).calls
              = [DbCall.classifyCall (item.description.getD "")]
            ∨ ∃ cls sz amount days,
                (processItem env p.vendor p.invoice_date req.userId invoiceId
                    (invoiceRentalDays p.billed_from p.billed_through) item).calls
                  = [DbCall.classifyCall (item.description.getD ""),
                     DbCall.savingsCall cls sz amount days]) := by
  obtain ⟨img, him⟩ := Option.isSome_iff_exists.mp himg
  have htrace : (parseBase64 env req).2
      = DbWrite.insertParsedInvoice (buildInsertPayload p req.userId)
          :: ((marketLoop env p.vendor p.invoice_date req.userId invoiceId
                (invoiceRentalDays p.billed_from p.billed_through) p.equipment).writes
              ++ [DbWrite.updateSavings invoiceId
                    (marketLoop env p.vendor p.invoice_date req.userId invoiceId
                      (invoiceRentalDays p.billed_from p.billed_through)
                      p.equipment).totalMarketSavings
                    (marketLoop env p.vendor p.invoice_date req.userId invoiceId
                      (invoiceRentalDays p.billed_from p.billed_through)
                      p.equipment).equipmentWithRates]) := by
    simp [parseBase64, him, hp, persistPhase, hins]
  constructor
  · refine ⟨(marketLoop env p.vendor p.invoice_date req.userId invoiceId
      (invoiceRentalDays p.billed_from p.billed_through) p.equipment).equipmentWithRates, ?_⟩
    have hsum := marketLoop_total env p.vendor p.invoice_date req.userId invoiceId
      (invoiceRentalDays p.billed_from p.billed_through) p.equipment
    rw [htrace, ← hsum]
    simp
  · intro item
    exact processItem_calls_shape env p.vendor p.invoice_date req.userId invoiceId
      (invoiceRentalDays p.billed_from p.billed_through) item

/-- A concrete environment whose model response decodes directly and whose
insert succeeds with id 1, used by witnesses. -/
def sampleEnvOk : Env :=
  { content := "x"
    jsonParse := fun _ => some sampleParsed
    insertResult := some 1
    classify := fun _ => []
    calcSavings := fun _ _ _ _ => [] }

/-- A concrete request carrying an image, used by witnesses. -/
def sampleReq : Req := { base64Image := some "img", mimeType := none, userId := none }

theorem market_savings_update_witness :
    ∃ ewr, DbWrite.updateSavings 1 0 ewr ∈ (parseBase64 sampleEnvOk sampleReq).2 := by
  have h := market_savings_update sampleEnvOk sampleReq sampleParsed 1 rfl rfl rfl
  simpa [sampleParsed] using h.1

/-- C7: with an image present, POST /parse-base64 proceeds past the LLM call
to normalization and persistence exactly when the response text parses as
JSON directly or the substring from its first opening brace to its last
closing brace parses as JSON: a successful repair hands the decoded invoice
to `persistPhase`, and when neither parse succeeds the endpoint returns an
error response and performs no database write. -/
theorem json_repair_gate (env : Env) (req : Req) (img : String)
    (himg : req.base64Image = some img) :
    (∀ p : ParsedInvoice,
        repairJson env.jsonParse env.content = .ok p
          ↔ (env.jsonParse env.content = some p
              ∨ (env.jsonParse env.content = none
                  ∧ ∃ m, braceSubstring env.content = some m
                      ∧ env.jsonParse m = some p)))
      ∧ (∀ p, repairJson env.jsonParse env.content = .ok p →
          parseBase64 env req = persistPhase env req p)
      ∧ ((∀ p, repairJson env.jsonParse env.content ≠ .ok p) →
          (parseBase64 env req).1.isError = true ∧ (parseBase64 env req).2 = []) := by
  refine ⟨?_, ?_, ?_⟩
  · intro p
    unfold repairJson
    cases hdirect : env.jsonParse env.content with
    | some q => simp [hdirect]
    | none =>
      cases hbrace : braceSubstring env.content with
      | none => simp [hbrace]
      | some m =>
        cases hm : env.jsonParse m with
        | none => simp [hbrace, hm]
        | some q => simp [hbrace, hm]
  · intro p hp
    simp [parseBase64, himg, hp]
  · intro hno
    cases hrep : repairJson env.jsonParse env.content with
    | ok p => exact absurd hrep (hno p)
    | noJson => simp [parseBase64, himg, hrep, Resp.isError]
    | badJson => simp [parseBase64, himg, hrep, Resp.isError]

/-- A concrete environment whose model response never decodes and contains no
brace, used by witnesses. -/
def sampleEnvNoJson : Env :=
  { content := "x"
    jsonParse := fun _ => none
    insertResult := none
    classify := fun _ => []
    calcSavings := fun _ _ _ _ => [] }

theorem json_repair_gate_witness :
    (parseBase64 sampleEnvNoJson sampleReq).1.isError = true
      ∧ (parseBase64 sampleEnvNoJson sampleReq).2 = [] := by
  have h := json_repair_gate sampleEnvNoJson sampleReq "img" rfl
  refine h.2.2 ?_
  intro p hp
  have hrep : repairJson sampleEnvNoJson.jsonParse sampleEnvNoJson.content
      = RepairOutcome.noJson := by decide
  rw [hrep] at hp
  exact RepairOutcome.noConfusion hp

theorem rates_insert_flags (w : DbWrite) (h : w.isEquipmentRatesInsert = true) :
    w.isParsedInvoiceInsert = false ∧ w.onParsedInvoices = false
      ∧ w.isDelete = false := by
  cases w <;> simp_all [DbWrite.isEquipmentRatesInsert, DbWrite.isParsedInvoiceInsert,
    DbWrite.onParsedInvoices, DbWrite.isDelete]

theorem filter_of_all_rates (ws : List DbWrite) (pred : DbWrite → Bool)
    (hpred : ∀ w, w.isEquipmentRatesInsert = true → pred w = false)
    (h : ws.all DbWrite.isEquipmentRatesInsert = true) :
    ws.filter pred = [] := by
  induction ws with
  | nil => rfl
  | cons w rest ih =>
    rw [List.all_cons, Bool.and_eq_true] at h
    rw [List.filter_cons_of_neg (by simp [hpred w h.1]), ih h.2]

theorem processItem_writes_rates (env : Env) (vendor invoiceDate userId : Option String)
    (invoiceId : ℤ) (invDays : ℤ) (item : EquipItem) :
    (processItem env vendor invoiceDate userId invoiceId invDays item).writes.all
      DbWrite.isEquipmentRatesInsert = true := by
  simp only [processItem]
  by_cases hd : descFalsy item.description
  · simp [hd]
  · by_cases ha : resolvedAmount item (itemRentalDays item invDays) = 0
    · simp [hd, ha]
    · cases hc : env.classify (item.description.getD "") with
      | nil => simp [hd, ha, hc]
      | cons classified rest =>
        cases hs : env.calcSavings classified.equipment_class classified.equipment_size
            (resolvedAmount item (itemRentalDays item invDays))
            (itemRentalDays item invDays) with
        | nil => simp [hd, ha, hc, hs]
        | cons savings srest =>
          simp [hd, ha, hc, hs, DbWrite.isEquipmentRatesInsert]

theorem marketLoop_writes_rates (env : Env) (vendor invoiceDate userId : Option String)
    (invoiceId : ℤ) (invDays : ℤ) (items : List EquipItem) :
    (marketLoop env vendor invoiceDate userId invoiceId invDays items).writes.all
      DbWrite.isEquipmentRatesInsert = true := by
  induction items with
  | nil => simp [marketLoop]
  | cons item rest ih =>
    simp only [marketLoop, List.all_append, Bool.and_eq_true]
    exact ⟨processItem_writes_rates env vendor invoiceDate userId invoiceId invDays item, ih⟩

/-- C4 counterexample: a POST /parse request whose model response decodes
successfully returns a success response, yet its database trace contains no
`parsed_invoices` insert — the file-upload endpoint stores nothing, contrary
to "every parse request creates a parsed_invoice record". -/
theorem parse_upload_no_insert :
    (parseUpload (fun _ => some sampleParsed) (some "file") "text").1
        = Resp.successData sampleParsed
      ∧ ((parseUpload (fun _ => some sampleParsed) (some "file") "text").2.filter
          DbWrite.isParsedInvoiceInsert).length ≠ 1 := by
  refine ⟨rfl, ?_⟩
  rw [show (parseUpload (fun _ => some sampleParsed) (some "file") "text").2 = []
    from rfl]
  simp

/-- C4 amended: each POST /parse-base64 request that returns a success
response results in exactly one new `parsed_invoices` insert, but POST
/parse performs no database write at all, so only the base64 endpoint
creates a parsed_invoice record. -/
theorem parse_request_insert_count (env : Env) (req : Req)
    (jsonParse : String → Option ParsedInvoice) (file : Option String)
    (content : String) :
    ((parseBase64 env req).1.isSuccess = true →
        ((parseBase64 env req).2.filter DbWrite.isParsedInvoiceInsert).length = 1)
      ∧ ((parseUpload jsonParse file content).2.filter
          DbWrite.isParsedInvoiceInsert).length = 0 := by
  constructor
  · intro hs
    cases him : req.base64Image with
    | none => simp [parseBase64, him, Resp.isSuccess] at hs
    | some img =>
      cases hrep : repairJson env.jsonParse env.content with
      | noJson => simp [parseBase64, him, hrep, Resp.isSuccess] at hs
      | badJson => simp [parseBase64, him, hrep, Resp.isSuccess] at hs
      | ok p =>
        cases hins : env.insertResult with
        | none =>
          simp [parseBase64, him, hrep, persistPhase, hins, Resp.isSuccess] at hs
        | some invoiceId =>
          have htrace : (parseBase64 env req).2
              = DbWrite.insertParsedInvoice (buildInsertPayload p req.userId)
                  :: ((marketLoop env p.vendor p.invoice_date req.userId invoiceId
                        (invoiceRentalDays p.billed_from p.billed_through)
                        p.equipment).writes
                      ++ [DbWrite.updateSavings invoiceId
                            (marketLoop env p.vendor p.invoice_date req.userId invoiceId
                              (invoiceRentalDays p.billed_from p.billed_through)
                              p.equipment).totalMarketSavings
                            (marketLoop env p.vendor p.invoice_date req.userId invoiceId
                              (invoiceRentalDays p.billed_from p.billed_through)
                              p.equipment).equipmentWithRates]) := by
            simp [parseBase64, him, hrep, persistPhase, hins]
          rw [htrace]
          rw [List.filter_cons_of_pos (by simp [DbWrite.isParsedInvoiceInsert]),
            List.filter_append,
            filter_of_all_rates _ _ (fun w hw => (rates_insert_flags w hw).1)
              (marketLoop_writes_rates env p.vendor p.invoice_date req.userId invoiceId
                (invoiceRentalDays p.billed_from p.billed_through) p.equipment),
            List.filter_cons_of_neg (by simp [DbWrite.isParsedInvoiceInsert])]
          simp
  · cases file with
    | none => rfl
    | some f =>
      unfold parseUpload
      cases jsonParse (stripCodeFences content) with
      | none => rfl
      | some parsed => rfl

theorem parse_request_insert_count_witness :
    ((parseBase64 sampleEnvOk sampleReq).2.filter
      DbWrite.isParsedInvoiceInsert).length = 1 := by
  have h := parse_request_insert_count sampleEnvOk sampleReq (fun _ => none) none ""
  exact h.1 rfl

theorem all_not_delete_of_all_rates (ws : List DbWrite)
    (h : ws.all DbWrite.isEquipmentRatesInsert = true) :
    ws.all (fun w => !w.isDelete) = true := by
  rw [List.all_eq_true] at h ⊢
  intro w hw
  have hflag := (rates_insert_flags w (h w hw)).2.2
  simp [hflag]

theorem parseUpload_writes_nil (jsonParse : String → Option ParsedInvoice)
    (file : Option String) (content : String) :
    (parseUpload jsonParse file content).2 = [] := by
  cases file with
  | none => rfl
  | some f =>
    unfold parseUpload
    cases jsonParse (stripCodeFences content) with
    | none => rfl
    | some parsed => rfl

theorem processItemV2_writes_rates (env : Env) (vendor invoiceDate userId : Option String)
    (invoiceId : ℤ) (item : EquipItem) :
    (processItemV2 env vendor invoiceDate userId invoiceId item).writes.all
      DbWrite.isEquipmentRatesInsert = true := by
  simp only [processItemV2]
  by_cases hd : descFalsy item.description
  · simp [hd]
  · by_cases ha : (if toNum item.amount = 0 then
        calculateExpectedAmount2 item.day_rate item.week_rate item.four_week_rate
          (some (toDays item.rental_days))
      else toNum item.amount) = 0
    · simp [hd, ha]
    · cases hc : env.classify (item.description.getD "") with
      | nil => simp [hd, ha, hc]
      | cons classified rest =>
        cases hs : env.calcSavings classified.equipment_class classified.equipment_size
            (if toNum item.amount = 0 then
              calculateExpectedAmount2 item.day_rate item.week_rate item.four_week_rate
                (some (toDays item.rental_days))
            else toNum item.amount) (toDays item.rental_days) with
        | nil => simp [hd, ha, hc, hs]
        | cons savings srest =>
          simp [hd, ha, hc, hs, DbWrite.isEquipmentRatesInsert]

theorem marketLoopV2_writes_rates (env : Env) (vendor invoiceDate userId : Option String)
    (invoiceId : ℤ) (items : List EquipItem) :
    (marketLoopV2 env vendor invoiceDate userId invoiceId items).writes.all
      DbWrite.isEquipmentRatesInsert = true := by
  induction items with
  | nil => simp [marketLoopV2]
  | cons item rest ih =>
    simp only [marketLoopV2, List.all_append, Bool.and_eq_true]
    exact ⟨processItemV2_writes_rates env vendor invoiceDate userId invoiceId item, ih⟩

theorem fixInvoice_all_update (classify : String → List Classified)
    (calcSavings : String → String → ℚ → ℤ → List SavingsRow) (inv : InvoiceRow) :
    (fixInvoice classify calcSavings inv).all DbWrite.isUpdateSavings = true := by
  unfold fixInvoice
  by_cases h : inv.payload.equipment.isEmpty
  · simp [h, DbWrite.isUpdateSavings]
  · simp [h, DbWrite.isUpdateSavings]

/-- C5: (i) the `parsed_invoices` slice of any POST /parse-base64 trace is
either empty or exactly the initial insert followed by the single savings
update on the inserted id — no other write touches that row; (ii) applying
the savings update to a row changes `market_savings` and
`equipment_with_rates` and leaves the id and every inserted column
unchanged; (iii) no modelled code path — either parse endpoint, the second
and earliest /parse-base64 variants, or the fix script — ever deletes a
`parsed_invoices` row, and the fix script issues savings updates only. -/
theorem parsed_invoices_lifecycle :
    (∀ env req, ((parseBase64 env req).2.filter DbWrite.onParsedInvoices) = []
        ∨ ∃ payload invoiceId ms ewr,
            env.insertResult = some invoiceId
              ∧ ((parseBase64 env req).2.filter DbWrite.onParsedInvoices)
                = [DbWrite.insertParsedInvoice payload,
                   DbWrite.updateSavings invoiceId ms ewr])
      ∧ (∀ row ms ewr,
          (applyUpdateSavings row ms ewr).id = row.id
            ∧ (applyUpdateSavings row ms ewr).payload = row.payload
            ∧ (applyUpdateSavings row ms ewr).market_savings = some ms
            ∧ (applyUpdateSavings row ms ewr).equipment_with_rates = some ewr)
      ∧ (∀ env req, (parseBase64 env req).2.all (fun w => !w.isDelete) = true)
      ∧ (∀ jsonParse file content,
          (parseUpload jsonParse file content).2.all (fun w => !w.isDelete) = true)
      ∧ (∀ env req, (parseBase64V2 env req).2.all (fun w => !w.isDelete) = true)
      ∧ (∀ env req, (parseBase64V0 env req).2.all (fun w => !w.isDelete) = true)
      ∧ (∀ classify calcSavings rows,
          (fixExistingInvoices classify calcSavings rows).all
            DbWrite.isUpdateSavings = true) := by
  refine ⟨?_, ?_, ?_, ?_, ?_, ?_, ?_⟩
  · intro env req
    cases him : req.base64Image with
    | none => exact Or.inl (by simp [parseBase64, him])
    | some img =>
      cases hrep : repairJson env.jsonParse env.content with
      | noJson => exact Or.inl (by simp [parseBase64, him, hrep])
      | badJson => exact Or.inl (by simp [parseBase64, him, hrep])
      | ok p =>
        cases hins : env.insertResult with
        | none => exact Or.inl (by simp [parseBase64, him, hrep, persistPhase, hins])
        | some invoiceId =>
          refine Or.inr ⟨buildInsertPayload p req.userId, invoiceId,
            (marketLoop env p.vendor p.invoice_date req.userId invoiceId
              (invoiceRentalDays p.billed_from p.billed_through)
              p.equipment).totalMarketSavings,
            (marketLoop env p.vendor p.invoice_date req.userId invoiceId
              (invoiceRentalDays p.billed_from p.billed_through)
              p.equipment).equipmentWithRates, rfl, ?_⟩
          have htrace : (parseBase64 env req).2
              = DbWrite.insertParsedInvoice (buildInsertPayload p req.userId)
                  :: ((marketLoop env p.vendor p.invoice_date req.userId invoiceId
                        (invoiceRentalDays p.billed_from p.billed_through)
                        p.equipment).writes
                      ++ [DbWrite.updateSavings invoiceId
                            (marketLoop env p.vendor p.invoice_date req.userId invoiceId
                              (invoiceRentalDays p.billed_from p.billed_through)
                              p.equipment).totalMarketSavings
                            (marketLoop env p.vendor p.invoice_date req.userId invoiceId
                              (invoiceRentalDays p.billed_from p.billed_through)
                              p.equipment).equipmentWithRates]) := by
            simp [parseBase64, him, hrep, persistPhase, hins]
          rw [htrace,
            List.filter_cons_of_pos (by simp [DbWrite.onParsedInvoices]),
            List.filter_append,
            filter_of_all_rates _ _ (fun w hw => (rates_insert_flags w hw).2.1)
              (marketLoop_writes_rates env p.vendor p.invoice_date req.userId invoiceId
                (invoiceRentalDays p.billed_from p.billed_through) p.equipment),
            List.filter_cons_of_pos (by simp [DbWrite.onParsedInvoices])]
          simp
  · intro row ms ewr
    exact ⟨rfl, rfl, rfl, rfl⟩
  · intro env req
    cases him : req.base64Image with
    | none => simp [parseBase64, him]
    | some img =>
      cases hrep : repairJson env.jsonParse env.content with
      | noJson => simp [parseBase64, him, hrep]
      | badJson => simp [parseBase64, him, hrep]
      | ok p =>
        cases hins : env.insertResult with
        | none => simp [parseBase64, him, hrep, persistPhase, hins]
        | some invoiceId =>
          have hrates := marketLoop_writes_rates env p.vendor p.invoice_date req.userId
            invoiceId (invoiceRentalDays p.billed_from p.billed_through) p.equipment
          have hloop := all_not_delete_of_all_rates _ hrates
          simp [parseBase64, him, hrep, persistPhase, hins, List.all_append,
            DbWrite.isDelete, List.all_eq_true] at hloop ⊢
          intro w hw
          exact hloop w hw
  · intro jsonParse file content
    rw [parseUpload_writes_nil]
    rfl
  · intro env req
    cases him : req.base64Image with
    | none => simp [parseBase64V2, him]
    | some img =>
      cases hrep : repairJson env.jsonParse env.content with
      | noJson => simp [parseBase64V2, him, hrep]
      | badJson => simp [parseBase64V2, him, hrep]
      | ok p =>
        cases hins : env.insertResult with
        | none => simp [parseBase64V2, him, hrep, hins]
        | some invoiceId =>
          have hrates := marketLoopV2_writes_rates env p.vendor p.invoice_date req.userId
            invoiceId p.equipment
          have hloop := all_not_delete_of_all_rates _ hrates
          simp [parseBase64V2, him, hrep, hins, List.all_append,
            DbWrite.isDelete, List.all_eq_true] at hloop ⊢
          intro w hw
          exact hloop w hw
  · intro env req
    cases him : req.base64Image with
    | none => simp [parseBase64V0, him]
    | some img =>
      cases hrep : repairJson env.jsonParse env.content with
      | noJson => simp [parseBase64V0, him, hrep]
      | badJson => simp [parseBase64V0, him, hrep]
      | ok p =>
        cases hins : env.insertResult with
        | none => simp [parseBase64V0, him, hrep, hins]
        | some invoiceId => simp [parseBase64V0, him, hrep, hins, DbWrite.isDelete]
  · intro classify calcSavings rows
    rw [List.all_eq_true]
    intro w hw
    rw [fixExistingInvoices, List.mem_flatten] at hw
    obtain ⟨l, hl, hwl⟩ := hw
    rw [List.mem_map] at hl
    obtain ⟨inv, _, rfl⟩ := hl
    have hall := fixInvoice_all_update classify calcSavings inv
    rw [List.all_eq_true] at hall
    exact hall w hwl

theorem insert_numeric_defaults_witness :
    (buildInsertPayload sampleParsed none).tax = none
      ∧ (buildInsertPayload sampleParsed none).fee_percentage = none := by
  have h := insert_numeric_defaults sampleParsed none
  exact ⟨h.2.2.2.2.2.2.1 rfl, h.2.2.2.2.2.2.2.2.2.2.2 (by norm_num [sampleParsed, toNum])⟩

end ParseApi
